import Mathlib

/-!
Verification development for the tradebot repository.

Shallow embedding of the core data model and operations of the repository:

* `src/market_data.py` — `DynamicTargetPool` (bounded scored symbol pool with
  eviction, failure cooldown, success/failure score feedback);
* `src/binance_client.py` — `BinanceClient.api_retry` together with the
  `exception_handler` decorator (error-classifying retry loop);
* `src/risk.py` — `RiskManager.calculate_position_size` and
  `RiskManager.check_risk_limits`;
* `src/position.py` — `PositionManager.update_trailing_stop`,
  `PositionManager.update_stop_loss` and `PositionManager.process_partial_close`.

Python floats are idealized as rationals (`ℚ`); Python dictionaries are
embedded as insertion-ordered association lists; coroutine effects (network
calls, order placement) are passed in as explicit oracle arguments.
-/

namespace TradeBot

/-! ## Dictionary helpers (Python `dict` as insertion-ordered association list) -/

/-- Lookup of a key in an association list (first match), `d.get(k)` / `k in d`. -/
def lookupD {β : Type} : List (String × β) → String → Option β
  | [], _ => none
  | e :: t, k => if e.1 = k then some e.2 else lookupD t k

theorem lookupD_eq_none {β : Type} (l : List (String × β)) (k : String) :
    lookupD l k = none ↔ k ∉ l.map Prod.fst := by
  induction l with
  | nil => simp [lookupD]
  | cons e t ih =>
    simp only [lookupD, List.map_cons, List.mem_cons, not_or]
    by_cases h : e.1 = k
    · simp [h]
    · simp only [if_neg h, ih]
      constructor
      · intro ht
        exact ⟨fun hk => h hk.symm, ht⟩
      · intro hb
        exact hb.2

theorem lookupD_mem {β : Type} {l : List (String × β)} {k : String} {v : β} :
    lookupD l k = some v → (k, v) ∈ l := by
  induction l with
  | nil => simp [lookupD]
  | cons e t ih =>
    intro hv
    by_cases h : e.1 = k
    · rw [lookupD, if_pos h] at hv
      injection hv with hv2
      subst hv2
      subst h
      exact List.mem_cons.mpr (Or.inl Prod.mk.eta)
    · rw [lookupD, if_neg h] at hv
      exact List.mem_cons_of_mem _ (ih hv)

/-! ## DynamicTargetPool (src/market_data.py)

A pool entry is a Python dict holding a `score` field (possibly absent) among
other fields (`last_update`, `signal_strength`, ...).  Only the `score` field is
observable by any of the pool operations modelled here, so an entry is embedded
as its optional score.  -/

/-- One pool entry: the symbol together with the optional `score` field of its
data dict (the other dict fields do not influence any modelled operation). -/
abbrev Entry := String × Option ℚ

/-- `x[1].get('score', 0)` — the sort key used by eviction and by
`get_top_targets`. -/
def scoreKey (e : Entry) : ℚ := e.2.getD 0

/-- Ascending comparison on entries used by the eviction sort
(`sorted(self.targets.items(), key=lambda x: x[1].get('score', 0))`). -/
def scoreLe (a b : Entry) : Prop := scoreKey a ≤ scoreKey b

/-- Descending comparison used by `get_top_targets` (`reverse=True`). -/
def scoreGe (a b : Entry) : Prop := scoreKey b ≤ scoreKey a

instance : DecidableRel scoreLe := fun x y => inferInstanceAs (Decidable (scoreKey x ≤ scoreKey y))

instance : DecidableRel scoreGe := fun x y => inferInstanceAs (Decidable (scoreKey y ≤ scoreKey x))

instance : IsTotal Entry scoreLe := ⟨fun x y => le_total (scoreKey x) (scoreKey y)⟩

instance : IsTrans Entry scoreLe := ⟨fun _ _ _ hab hbc => le_trans hab hbc⟩

instance : IsTotal Entry scoreGe := ⟨fun x y => le_total (scoreKey y) (scoreKey x)⟩

instance : IsTrans Entry scoreGe := ⟨fun _ _ _ hab hbc => le_trans hbc hab⟩

/-- `attempt_failures[symbol]`: failure count and time of the last failure
(the `reasons` list is unobservable by the modelled operations). -/
structure FailureRec where
  count : ℕ
  lastFailure : ℚ
deriving DecidableEq

/-- `success_history[symbol]`: success count and time of the last success. -/
structure SuccessRec where
  count : ℕ
  lastSuccess : ℚ
deriving DecidableEq

/-- `DynamicTargetPool` state. -/
structure TargetPool where
  targets : List Entry
  maxPoolSize : ℕ
  attemptFailures : List (String × FailureRec)
  successHistory : List (String × SuccessRec)
deriving DecidableEq

/-- Dict merge step of `add_or_update_target`: for an existing symbol the data
dict is merged into the entry (`self.targets[symbol].update(data)`), so an
incoming `score` overwrites the stored one and an absent incoming `score`
keeps the stored one; a new symbol is appended with the incoming data. -/
def upsertRaw (targets : List Entry) (symbol : String) (dataScore : Option ℚ) :
    List Entry :=
  if (lookupD targets symbol).isSome then
    targets.map fun e =>
      if e.1 = symbol then (e.1, (dataScore.orElse fun _ => e.2)) else e
  else
    targets ++ [(symbol, dataScore)]

/-- Eviction step of `add_or_update_target` (market_data.py lines 60-67):
if the pool exceeds `max_pool_size`, sort ascending by score and delete the
first `len - max_pool_size` symbols from the dict. -/
def evict (targets : List Entry) (cap : ℕ) : List Entry :=
  if cap < targets.length then
    targets.filter fun e =>
      !(decide (e.1 ∈
        ((List.insertionSort scoreLe targets).take (targets.length - cap)).map Prod.fst))
  else targets

/-- `DynamicTargetPool.add_or_update_target` (market_data.py lines 40-67). -/
def add_or_update_target (p : TargetPool) (symbol : String) (dataScore : Option ℚ) :
    TargetPool :=
  { p with targets := evict (upsertRaw p.targets symbol dataScore) p.maxPoolSize }

/-- `DynamicTargetPool.record_attempt_failure` (market_data.py lines 69-98):
bump the failure record, then multiply the symbol's pool score by
`(1 - min(0.5, failure_count * 0.1))` when the symbol is in the pool.
(The score multiplication applies to the entry's `score` field; the source
presupposes the field is present on pooled entries.) -/
def record_attempt_failure (p : TargetPool) (now : ℚ) (symbol : String) : TargetPool :=
  let newCount : ℕ :=
    match lookupD p.attemptFailures symbol with
    | none => 1
    | some f => f.count + 1
  let failures' :=
    if (lookupD p.attemptFailures symbol).isSome then
      p.attemptFailures.map fun e =>
        if e.1 = symbol then (e.1, FailureRec.mk newCount now) else e
    else
      p.attemptFailures ++ [(symbol, FailureRec.mk newCount now)]
  let targets' :=
    if (lookupD p.targets symbol).isSome then
      p.targets.map fun e =>
        if e.1 = symbol then
          (e.1, e.2.map (· * (1 - min (1/2) ((newCount : ℚ) * (1/10)))))
        else e
    else p.targets
  { p with attemptFailures := failures', targets := targets' }

/-- `DynamicTargetPool.record_success` (market_data.py lines 100-130):
bump the success record, then multiply the symbol's pool score by
`(1 + min(0.3, success_count * 0.05))` when the symbol is in the pool. -/
def record_success (p : TargetPool) (now : ℚ) (symbol : String) : TargetPool :=
  let newCount : ℕ :=
    match lookupD p.successHistory symbol with
    | none => 1
    | some s => s.count + 1
  let successes' :=
    if (lookupD p.successHistory symbol).isSome then
      p.successHistory.map fun e =>
        if e.1 = symbol then (e.1, SuccessRec.mk newCount now) else e
    else
      p.successHistory ++ [(symbol, SuccessRec.mk newCount now)]
  let targets' :=
    if (lookupD p.targets symbol).isSome then
      p.targets.map fun e =>
        if e.1 = symbol then
          (e.1, e.2.map (· * (1 + min (3/10) ((newCount : ℚ) * (1/20)))))
        else e
    else p.targets
  { p with successHistory := successes', targets := targets' }

/-- `DynamicTargetPool.is_symbol_cooling_down` (market_data.py lines 132-154). -/
def is_symbol_cooling_down (p : TargetPool) (now : ℚ) (symbol : String) : Bool :=
  match lookupD p.attemptFailures symbol with
  | none => false
  | some f => decide (now - f.lastFailure < min 3600 ((f.count : ℚ) * 300))

/-- `DynamicTargetPool.get_top_targets` (market_data.py lines 156-186):
filter out cooling symbols (when requested), sort descending by score, return
the first `count` symbols. -/
def get_top_targets (p : TargetPool) (now : ℚ) (count : ℕ) (excludeCooling : Bool) :
    List String :=
  let available :=
    p.targets.filter fun e => !(excludeCooling && is_symbol_cooling_down p now e.1)
  ((List.insertionSort scoreGe available).take count).map Prod.fst

/-! ### Pool lemmas -/

theorem upsertRaw_keys_update (l : List Entry) (sym : String) (d : Option ℚ)
    (h : (lookupD l sym).isSome = true) :
    (upsertRaw l sym d).map Prod.fst = l.map Prod.fst := by
  rw [upsertRaw, if_pos h, List.map_map]
  congr 1
  funext e
  by_cases he : e.1 = sym <;> simp [he]

theorem upsertRaw_keysNodup {l : List Entry} {sym : String} {d : Option ℚ}
    (h : (l.map Prod.fst).Nodup) : ((upsertRaw l sym d).map Prod.fst).Nodup := by
  by_cases hs : (lookupD l sym).isSome
  · rw [upsertRaw_keys_update l sym d hs]
    exact h
  · rw [upsertRaw, if_neg hs]
    have hnot : sym ∉ l.map Prod.fst :=
      (lookupD_eq_none l sym).mp (Option.not_isSome_iff_eq_none.mp hs)
    rw [List.map_append]
    simp [List.nodup_append, h, List.disjoint_singleton, hnot]

theorem upsertRaw_length_le (l : List Entry) (sym : String) (d : Option ℚ) :
    (upsertRaw l sym d).length ≤ l.length + 1 := by
  rw [upsertRaw]
  by_cases hs : (lookupD l sym).isSome <;> simp [hs]

theorem evict_perm_drop {l : List Entry} {cap : ℕ}
    (hnd : (l.map Prod.fst).Nodup) (hcap : cap < l.length) :
    (evict l cap).Perm
      ((List.insertionSort scoreLe l).drop (l.length - cap)) := by
  set s := List.insertionSort scoreLe l with hs
  set n := l.length - cap with hn
  have hperm : s.Perm l := List.perm_insertionSort _ l
  have hkeys : (s.map Prod.fst).Nodup := ((hperm.map Prod.fst).nodup_iff).mpr hnd
  have hsplit : s.take n ++ s.drop n = s := List.take_append_drop n s
  have hdisj : ∀ e ∈ s.drop n, e.1 ∉ (s.take n).map Prod.fst := by
    intro e he hmem
    rw [← hsplit, List.map_append] at hkeys
    exact (List.nodup_append.mp hkeys).2.2 hmem (List.mem_map_of_mem Prod.fst he)
  have hfil : s.filter (fun e => !(decide (e.1 ∈ (s.take n).map Prod.fst))) = s.drop n := by
    have h1 : (s.take n).filter
        (fun e => !(decide (e.1 ∈ (s.take n).map Prod.fst))) = [] := by
      rw [List.filter_eq_nil_iff]
      intro e he
      simp only [Bool.not_eq_true', decide_eq_false_iff_not, Decidable.not_not]
      exact List.mem_map_of_mem Prod.fst he
    have h2 : (s.drop n).filter
        (fun e => !(decide (e.1 ∈ (s.take n).map Prod.fst))) = s.drop n := by
      rw [List.filter_eq_self]
      intro e he
      simp only [Bool.not_eq_true', decide_eq_false_iff_not]
      exact hdisj e he
    calc s.filter (fun e => !(decide (e.1 ∈ (s.take n).map Prod.fst)))
        = (s.take n ++ s.drop n).filter
            (fun e => !(decide (e.1 ∈ (s.take n).map Prod.fst))) := by
          rw [hsplit]
      _ = s.drop n := by rw [List.filter_append, h1, h2, List.nil_append]
  rw [evict, if_pos hcap]
  refine ((hperm.filter _).symm).trans ?_
  rw [hfil]

theorem evict_keysNodup {l : List Entry} {cap : ℕ}
    (hnd : (l.map Prod.fst).Nodup) : ((evict l cap).map Prod.fst).Nodup := by
  rw [evict]
  by_cases hcap : cap < l.length
  · rw [if_pos hcap]
    exact hnd.sublist ((List.filter_sublist l).map Prod.fst)
  · rw [if_neg hcap]
    exact hnd

theorem evict_length_of_overflow {l : List Entry} {cap : ℕ}
    (hnd : (l.map Prod.fst).Nodup) (hcap : cap < l.length) :
    (evict l cap).length = cap := by
  have h := (evict_perm_drop hnd hcap).length_eq
  rw [List.length_drop, List.length_insertionSort] at h
  omega

theorem evict_length_le {l : List Entry} {cap : ℕ}
    (hnd : (l.map Prod.fst).Nodup) : (evict l cap).length ≤ max cap l.length := by
  by_cases hcap : cap < l.length
  · rw [evict_length_of_overflow hnd hcap]
    exact le_max_left _ _
  · rw [evict, if_neg hcap]
    exact le_max_right _ _

theorem evict_scores {l : List Entry} {cap : ℕ}
    (hnd : (l.map Prod.fst).Nodup) :
    ∀ e ∈ l, e ∉ evict l cap → ∀ k ∈ evict l cap, scoreKey e ≤ scoreKey k := by
  intro e hel henot k hk
  by_cases hcap : cap < l.length
  · set s := List.insertionSort scoreLe l with hs
    set n := l.length - cap with hn
    have hperm : s.Perm l := List.perm_insertionSort _ l
    have hpermev := evict_perm_drop hnd hcap
    have hkdrop : k ∈ s.drop n := hpermev.mem_iff.mp hk
    have hes : e ∈ s := hperm.mem_iff.mpr hel
    have hsplit : s.take n ++ s.drop n = s := List.take_append_drop n s
    have hsort : List.Sorted scoreLe s := List.sorted_insertionSort _ l
    rw [← hsplit] at hes
    rcases List.mem_append.mp hes with hetake | hedrop
    · rw [List.Sorted, ← hsplit, List.pairwise_append] at hsort
      exact hsort.2.2 e hetake k hkdrop
    · exact absurd (hpermev.mem_iff.mpr hedrop) henot
  · rw [evict, if_neg hcap] at henot
    exact absurd hel henot

theorem evict_keeps_strict_max {l : List Entry} {cap : ℕ}
    (hnd : (l.map Prod.fst).Nodup) (hcap1 : 1 ≤ cap) :
    ∀ e ∈ l, (∀ e2 ∈ l, e2.1 ≠ e.1 → scoreKey e2 < scoreKey e) → e ∈ evict l cap := by
  intro e hel hstrict
  by_cases hcap : cap < l.length
  · set s := List.insertionSort scoreLe l with hs
    set n := l.length - cap with hn
    have hperm : s.Perm l := List.perm_insertionSort _ l
    have hkeys : (s.map Prod.fst).Nodup := ((hperm.map Prod.fst).nodup_iff).mpr hnd
    have hpermev := evict_perm_drop hnd hcap
    have hes : e ∈ s := hperm.mem_iff.mpr hel
    have hsplit : s.take n ++ s.drop n = s := List.take_append_drop n s
    rw [← hsplit] at hes
    rcases List.mem_append.mp hes with hetake | hedrop
    · exfalso
      have hdroplen : 0 < (s.drop n).length := by
        rw [List.length_drop, List.length_insertionSort]
        omega
      obtain ⟨b, hb⟩ := List.exists_mem_of_length_pos hdroplen
      have hsort : List.Sorted scoreLe s := List.sorted_insertionSort _ l
      rw [List.Sorted, ← hsplit, List.pairwise_append] at hsort
      have hle : scoreLe e b := hsort.2.2 e hetake b hb
      have hbl : b ∈ l := hperm.mem_iff.mp (hsplit ▸ List.mem_append_right _ hb)
      have hbne : b.1 ≠ e.1 := by
        intro habs
        rw [← hsplit, List.map_append] at hkeys
        exact (List.nodup_append.mp hkeys).2.2
          (habs ▸ List.mem_map_of_mem Prod.fst hetake)
          (List.mem_map_of_mem Prod.fst hb)
      exact absurd hle (not_le.mpr (hstrict b hbl hbne))
    · exact hpermev.mem_iff.mpr hedrop
  · rw [evict, if_neg hcap]
    exact hel

theorem add_or_update_maxPoolSize (p : TargetPool) (sym : String) (d : Option ℚ) :
    (add_or_update_target p sym d).maxPoolSize = p.maxPoolSize := rfl

theorem add_or_update_keysNodup {p : TargetPool} {sym : String} {d : Option ℚ}
    (hnd : (p.targets.map Prod.fst).Nodup) :
    ((add_or_update_target p sym d).targets.map Prod.fst).Nodup :=
  evict_keysNodup (upsertRaw_keysNodup hnd)

theorem add_or_update_length_le {p : TargetPool} {sym : String} {d : Option ℚ}
    (hnd : (p.targets.map Prod.fst).Nodup) :
    (add_or_update_target p sym d).targets.length ≤ p.maxPoolSize := by
  have hup := upsertRaw_length_le p.targets sym d
  by_cases hcap : p.maxPoolSize < (upsertRaw p.targets sym d).length
  · rw [add_or_update_target]
    exact le_of_eq (evict_length_of_overflow (upsertRaw_keysNodup hnd) hcap)
  · rw [add_or_update_target]
    simpa [evict, if_neg hcap] using not_lt.mp hcap

theorem foldl_add_or_update_inv (ops : List (String × Option ℚ)) :
    ∀ p : TargetPool,
      (p.targets.map Prod.fst).Nodup → p.targets.length ≤ p.maxPoolSize →
      ((ops.foldl (fun q op => add_or_update_target q op.1 op.2) p).targets.map
          Prod.fst).Nodup ∧
      (ops.foldl (fun q op => add_or_update_target q op.1 op.2) p).targets.length
        ≤ p.maxPoolSize := by
  induction ops with
  | nil =>
    intro p h1 h2
    exact ⟨h1, h2⟩
  | cons op t ih =>
    intro p h1 h2
    simp only [List.foldl_cons]
    have h1' := @add_or_update_keysNodup p op.1 op.2 h1
    have h2' := @add_or_update_length_le p op.1 op.2 h1
    have hres := ih (add_or_update_target p op.1 op.2) h1' h2'
    rw [add_or_update_maxPoolSize] at hres
    exact hres

/-- Claim C5: after any sequence of upserts (`add_or_update_target`) the pool
size never exceeds the capacity `max_pool_size`; when an upsert pushes the size
above the capacity the pool is cut back to exactly the capacity, every evicted
entry scores no higher than every kept entry, and an entry scoring strictly
above all others is never evicted (given capacity ≥ 1).  Hypotheses: the pool's
symbols are distinct (a Python dict guarantees this) and the pool starts within
capacity. -/
theorem C5_upsert_capacity_and_eviction (p : TargetPool)
    (hnd : (p.targets.map Prod.fst).Nodup)
    (hlen : p.targets.length ≤ p.maxPoolSize) :
    (∀ ops : List (String × Option ℚ),
       (ops.foldl (fun q op => add_or_update_target q op.1 op.2) p).targets.length
         ≤ p.maxPoolSize) ∧
    (∀ sym d,
       (p.maxPoolSize < (upsertRaw p.targets sym d).length →
          (add_or_update_target p sym d).targets.length = p.maxPoolSize) ∧
       (∀ e ∈ upsertRaw p.targets sym d,
          e ∉ (add_or_update_target p sym d).targets →
          ∀ k ∈ (add_or_update_target p sym d).targets, scoreKey e ≤ scoreKey k) ∧
       (1 ≤ p.maxPoolSize →
          ∀ e ∈ upsertRaw p.targets sym d,
            (∀ e2 ∈ upsertRaw p.targets sym d, e2.1 ≠ e.1 → scoreKey e2 < scoreKey e) →
            e ∈ (add_or_update_target p sym d).targets)) := by
  constructor
  · intro ops
    exact (foldl_add_or_update_inv ops p hnd hlen).2
  · intro sym d
    have hnd' := @upsertRaw_keysNodup p.targets sym d hnd
    refine ⟨?_, ?_, ?_⟩
    · intro hover
      exact evict_length_of_overflow hnd' hover
    · intro e he henot k hk
      exact evict_scores hnd' e he henot k hk
    · intro hcap1 e he hstrict
      exact evict_keeps_strict_max hnd' hcap1 e he hstrict

/-- Witness for C5 at a concrete pool: capacity 2, four consecutive upserts. -/
theorem C5_upsert_capacity_and_eviction_witness :
    (([("A", some 10), ("B", some 5), ("C", some 7), ("D", some 1)] :
        List (String × Option ℚ)).foldl
      (fun q op => add_or_update_target q op.1 op.2)
      (TargetPool.mk [] 2 [] [])).targets.length ≤ 2 :=
  (C5_upsert_capacity_and_eviction (TargetPool.mk [] 2 [] [])
    (by simp) (by simp)).1 _

theorem lookupD_map_update {β : Type} (l : List (String × β)) (sym k : String)
    (g : β → β) :
    lookupD (l.map fun e => if e.1 = sym then (e.1, g e.2) else e) k =
      if k = sym then (lookupD l k).map g else lookupD l k := by
  induction l with
  | nil => by_cases h : k = sym <;> simp [lookupD, h]
  | cons e t ih =>
    by_cases he : e.1 = sym
    · by_cases hek : e.1 = k
      · have hks : k = sym := by rw [← hek, he]
        simp [List.map_cons, lookupD, he, hek, hks]
      · have hsk : ¬ sym = k := by rw [← he]; exact hek
        have hks : ¬ k = sym := fun habs => hsk habs.symm
        simp [List.map_cons, lookupD, he, hek, ih, hsk, hks]
    · by_cases hek : e.1 = k
      · have hks : ¬ k = sym := fun habs => he (hek.symm ▸ habs)
        simp [List.map_cons, lookupD, he, hek, hks]
      · simp [List.map_cons, lookupD, he, hek, ih]

/-- Claim C6 counterexample: a pooled symbol at the score ceiling 100 is pushed
to 105 by a single `record_success` (first success: bonus factor
`1 + min(0.3, 1*0.05) = 1.05`); no clamp to `[0,100]` is applied by the score
feedback operations. -/
theorem C6_counterexample :
    lookupD (record_success
        (TargetPool.mk [("BTCUSDT", some 100)] 50 [] []) 0 "BTCUSDT").targets
      "BTCUSDT" = some (some 105) ∧ ¬ ((105 : ℚ) ≤ 100) := by
  constructor
  · simp only [record_success, lookupD]
    norm_num [min_def]
  · norm_num

/-- Claim C6 amended: for a pooled symbol with score `s ∈ [0,100]`,
`record_attempt_failure` keeps the score in `[0, s] ⊆ [0,100]` (penalty factor
in `[1/2, 9/10]`), while `record_success` keeps the score nonnegative but only
bounds it by `1.3·s`, which may exceed 100: the `[0,100]` clamp exists only in
`calculate_opportunity_score`, not in the score feedback operations. -/
theorem C6_amended (p : TargetPool) (now : ℚ) (sym : String) (s : ℚ)
    (hs : lookupD p.targets sym = some (some s)) (h0 : 0 ≤ s) (h100 : s ≤ 100) :
    (∀ s2, lookupD (record_attempt_failure p now sym).targets sym = some (some s2) →
       0 ≤ s2 ∧ s2 ≤ s ∧ s2 ≤ 100) ∧
    (∀ s2, lookupD (record_success p now sym).targets sym = some (some s2) →
       0 ≤ s2 ∧ s2 ≤ (13/10) * s) := by
  have hsome : (lookupD p.targets sym).isSome = true := by rw [hs]; rfl
  constructor
  · intro s2 h2
    simp only [record_attempt_failure, hsome, if_true] at h2
    rw [lookupD_map_update, if_pos rfl, hs] at h2
    simp only [Option.map_some, Option.map] at h2
    injection h2 with h2
    injection h2 with h2
    set c : ℕ :=
      (match lookupD p.attemptFailures sym with
       | none => 1
       | some f => f.count + 1) with hc
    have hc1 : (1 : ℚ) ≤ (c : ℚ) := by
      have : 1 ≤ c := by
        rw [hc]
        cases lookupD p.attemptFailures sym <;> simp
      exact_mod_cast this
    have hmin0 : (0 : ℚ) ≤ min (1/2) ((c : ℚ) * (1/10)) := by
      apply le_min <;> positivity
    have hmin2 : min (1/2) ((c : ℚ) * (1/10)) ≤ 1/2 := min_le_left _ _
    have hfac0 : (0 : ℚ) ≤ 1 - min (1/2) ((c : ℚ) * (1/10)) := by linarith
    have hfac1 : 1 - min (1/2) ((c : ℚ) * (1/10)) ≤ 1 := by linarith
    have hs2 : s2 = s * (1 - min (1/2) ((c : ℚ) * (1/10))) := h2.symm
    refine ⟨by rw [hs2]; exact mul_nonneg h0 hfac0, ?_, ?_⟩
    · rw [hs2]
      calc s * (1 - min (1/2) ((c : ℚ) * (1/10))) ≤ s * 1 :=
            mul_le_mul_of_nonneg_left hfac1 h0
        _ = s := mul_one s
    · rw [hs2]
      calc s * (1 - min (1/2) ((c : ℚ) * (1/10))) ≤ s * 1 :=
            mul_le_mul_of_nonneg_left hfac1 h0
        _ = s := mul_one s
        _ ≤ 100 := h100
  · intro s2 h2
    simp only [record_success, hsome, if_true] at h2
    rw [lookupD_map_update, if_pos rfl, hs] at h2
    simp only [Option.map_some, Option.map] at h2
    injection h2 with h2
    injection h2 with h2
    set c : ℕ :=
      (match lookupD p.successHistory sym with
       | none => 1
       | some r => r.count + 1) with hc
    have hmin0 : (0 : ℚ) ≤ min (3/10) ((c : ℚ) * (1/20)) := by
      apply le_min <;> positivity
    have hmin3 : min (3/10) ((c : ℚ) * (1/20)) ≤ 3/10 := min_le_left _ _
    have hfac1 : (1 : ℚ) ≤ 1 + min (3/10) ((c : ℚ) * (1/20)) := by linarith
    have hfac13 : 1 + min (3/10) ((c : ℚ) * (1/20)) ≤ 13/10 := by linarith
    have hs2 : s2 = s * (1 + min (3/10) ((c : ℚ) * (1/20))) := h2.symm
    constructor
    · rw [hs2]
      exact mul_nonneg h0 (by linarith)
    · rw [hs2]
      calc s * (1 + min (3/10) ((c : ℚ) * (1/20))) ≤ s * (13/10) :=
            mul_le_mul_of_nonneg_left hfac13 h0
        _ = (13/10) * s := mul_comm _ _

/-- Witness for C6 amended: score 50 drops to 45 on the first recorded failure
(penalty `1 - min(0.5, 0.1) = 0.9`) and the bounds hold there. -/
theorem C6_amended_witness :
    (0 : ℚ) ≤ 45 ∧ (45 : ℚ) ≤ 50 ∧ (45 : ℚ) ≤ 100 :=
  (C6_amended (TargetPool.mk [("X", some 50)] 50 [] []) 7 "X" 50
    (by simp [lookupD]) (by norm_num) (by norm_num)).1 45
    (by simp only [record_attempt_failure, lookupD]; norm_num [min_def])

/-- Claim C7: a symbol with a recorded failure count `k` and last failure at
time `tl` is excluded from `get_top_targets(exclude_cooling=true)` while
`now - tl < min 3600 (k*300)`, and once that window has elapsed (no new
failure) the symbol is ranked again: if it is in the pool and the pool fits in
the requested count it appears in the result. -/
theorem C7_cooldown (p : TargetPool) (now : ℚ) (sym : String) (k : ℕ) (tl : ℚ)
    (count : ℕ)
    (hf : lookupD p.attemptFailures sym = some (FailureRec.mk k tl)) :
    (now - tl < min 3600 ((k : ℚ) * 300) →
       sym ∉ get_top_targets p now count true) ∧
    (min 3600 ((k : ℚ) * 300) ≤ now - tl →
       (lookupD p.targets sym).isSome = true →
       p.targets.length ≤ count →
       sym ∈ get_top_targets p now count true) := by
  have hcool : is_symbol_cooling_down p now sym =
      decide (now - tl < min 3600 ((k : ℚ) * 300)) := by
    rw [is_symbol_cooling_down, hf]
  constructor
  · intro hlt hmem
    simp only [get_top_targets] at hmem
    obtain ⟨e, he, heq⟩ := List.mem_map.mp hmem
    have he2 := List.take_subset _ _ he
    have he3 := (List.mem_insertionSort _).mp he2
    have hcond := (List.mem_filter.mp he3).2
    rw [heq] at hcond
    rw [Bool.true_and, Bool.not_eq_true', hcool, decide_eq_false_iff_not] at hcond
    exact hcond hlt
  · intro hge hsome hlen
    obtain ⟨d, hd⟩ := Option.isSome_iff_exists.mp hsome
    have hmem : (sym, d) ∈ p.targets := lookupD_mem hd
    have hcoolf : is_symbol_cooling_down p now sym = false := by
      rw [hcool, decide_eq_false_iff_not]
      exact not_lt.mpr hge
    simp only [get_top_targets]
    have havail : (sym, d) ∈
        p.targets.filter fun e => !(true && is_symbol_cooling_down p now e.1) :=
      List.mem_filter.mpr ⟨hmem, by simp [hcoolf]⟩
    have hlenav :
        (p.targets.filter fun e =>
          !(true && is_symbol_cooling_down p now e.1)).length ≤ count :=
      le_trans (List.length_filter_le _ _) hlen
    rw [List.take_of_length_le (by rw [List.length_insertionSort]; exact hlenav)]
    exact List.mem_map.mpr
      ⟨(sym, d), (List.mem_insertionSort _).mpr havail, rfl⟩

/-- Witness for C7 (end-to-end scenario C): 3 failures, last at t=1000, window
900 s: a query at t=1500 (500 s later) excludes the symbol, a query at t=2000
(1000 s later) includes it. -/
theorem C7_cooldown_witness :
    "X" ∉ get_top_targets
        (TargetPool.mk [("X", some 50)] 50 [("X", FailureRec.mk 3 1000)] [])
        1500 5 true ∧
    "X" ∈ get_top_targets
        (TargetPool.mk [("X", some 50)] 50 [("X", FailureRec.mk 3 1000)] [])
        2000 5 true :=
  ⟨(C7_cooldown _ 1500 "X" 3 1000 5 (by decide)).1 (by norm_num [min_def]),
   (C7_cooldown _ 2000 "X" 3 1000 5 (by decide)).2 (by norm_num [min_def])
     (by decide) (by norm_num)⟩

/-! ## BinanceClient.api_retry and exception_handler (src/binance_client.py) -/

/-- Outcome of one underlying API call attempt: a returned value, a
`BinanceAPIException` carrying `getattr(e, 'code', None)`, or any other
exception. -/
inductive ApiOutcome
  | ok (v : ℕ)
  | binanceErr (code : Option ℤ)
  | otherExc
deriving DecidableEq

/-- The exception classes of src/exceptions.py raised by the gateway. -/
inductive ExcKind
  | networkError
  | apiError
  | accountError
  | inputError
  | customError
deriving DecidableEq

/-- What a call to the (decorated) retry wrapper produces for its caller:
a value, a raised exception, or `None` (the attempt for-loop ended without
returning or raising). -/
inductive RetryResult
  | value (v : ℕ)
  | raised (e : ExcKind)
  | noneReturn
deriving DecidableEq

/-- Trace of one `api_retry` run: final result, backoff sleeps in seconds in
order of occurrence, and the number of attempts performed. -/
structure RetryTrace where
  result : RetryResult
  sleeps : List ℕ
  attempts : ℕ
deriving DecidableEq

/-- The attempt loop of `BinanceClient.api_retry` (binance_client.py lines
109-179): `for attempt in range(1, max_retries + 1)`.  `gas` is the number of
attempts remaining in the range (`gas = maxRetries + 1 - attempt`); recursion
on `gas` embeds the for-loop, and `gas = 0` is the loop ending, after which the
function returns `None`.  `outcomes i` is what the underlying call does on
attempt `i`. -/
def apiRetryGo (outcomes : ℕ → ApiOutcome) (maxRetries : ℕ) :
    ℕ → ℕ → RetryTrace
  | _, 0 => RetryTrace.mk .noneReturn [] 0
  | attempt, gas + 1 =>
    match outcomes attempt with
    | .ok v => RetryTrace.mk (.value v) [] 1
    | .binanceErr code =>
      if code = some (-1021) ∨ code = some (-1022) then
        let t := apiRetryGo outcomes maxRetries (attempt + 1) gas
        RetryTrace.mk t.result t.sleeps (t.attempts + 1)
      else if code = some (-1003) then
        let t := apiRetryGo outcomes maxRetries (attempt + 1) gas
        RetryTrace.mk t.result (2 ^ attempt * 2 :: t.sleeps) (t.attempts + 1)
      else if code = some (-2010) then RetryTrace.mk (.raised .accountError) [] 1
      else if code = some (-2011) then RetryTrace.mk (.raised .apiError) [] 1
      else if code = some (-1121) then RetryTrace.mk (.raised .inputError) [] 1
      else if attempt < maxRetries then
        let t := apiRetryGo outcomes maxRetries (attempt + 1) gas
        RetryTrace.mk t.result (2 ^ attempt :: t.sleeps) (t.attempts + 1)
      else RetryTrace.mk (.raised .apiError) [] 1
    | .otherExc =>
      if attempt < maxRetries then
        let t := apiRetryGo outcomes maxRetries (attempt + 1) gas
        RetryTrace.mk t.result (2 ^ attempt :: t.sleeps) (t.attempts + 1)
      else RetryTrace.mk (.raised .customError) [] 1

/-- The undecorated retry loop, started at attempt 1 with the full range. -/
def apiRetryLoop (outcomes : ℕ → ApiOutcome) (maxRetries : ℕ) : RetryTrace :=
  apiRetryGo outcomes maxRetries 1 maxRetries

/-- The `exception_handler` decorator (binance_client.py lines 49-64).  Each
exception class the retry loop raises (AccountError, APIError, InputError,
CustomError) is a subclass of `CustomError ⊆ Exception` and matches neither the
`(BinanceAPIException, aiohttp.ClientError)` clause nor the
`(json.JSONDecodeError, ValueError, TypeError)` clause, so every one of them is
caught by the final `except Exception` clause and re-raised as a fresh plain
`CustomError`. -/
def exceptionHandlerClass : ExcKind → ExcKind
  | .networkError => .customError
  | .apiError => .customError
  | .accountError => .customError
  | .inputError => .customError
  | .customError => .customError

/-- The decorated `api_retry` as its callers invoke it: the retry loop wrapped
by `exception_handler` (`timer_decorator` re-raises unchanged). -/
def api_retry (outcomes : ℕ → ApiOutcome) (maxRetries : ℕ) : RetryTrace :=
  let t := apiRetryLoop outcomes maxRetries
  match t.result with
  | .raised e => RetryTrace.mk (.raised (exceptionHandlerClass e)) t.sleeps t.attempts
  | r => RetryTrace.mk r t.sleeps t.attempts

/-- An error code handled by the final generic-backoff branch of the retry
loop (none of the specially classified codes). -/
def genericCode (c : Option ℤ) : Prop :=
  ¬(c = some (-1021) ∨ c = some (-1022)) ∧ c ≠ some (-1003) ∧
    c ≠ some (-2010) ∧ c ≠ some (-2011) ∧ c ≠ some (-1121)

theorem apiRetryGo_attempts_le (outcomes : ℕ → ApiOutcome) (m : ℕ) :
    ∀ g a, (apiRetryGo outcomes m a g).attempts ≤ g := by
  intro g
  induction g with
  | zero =>
    intro a
    simp [apiRetryGo]
  | succ g ih =>
    intro a
    rcases houtcome : outcomes a with v | c | _
    · simp only [apiRetryGo, houtcome]
      exact Nat.succ_le_succ (Nat.zero_le g)
    · simp only [apiRetryGo, houtcome]
      split_ifs <;>
        first
        | exact Nat.succ_le_succ (ih (a + 1))
        | exact Nat.succ_le_succ (Nat.zero_le g)
    · simp only [apiRetryGo, houtcome]
      split_ifs <;>
        first
        | exact Nat.succ_le_succ (ih (a + 1))
        | exact Nat.succ_le_succ (Nat.zero_le g)

/-- One unfolding of the loop body for a nonempty remaining range. -/
theorem apiRetryGo_succ (outcomes : ℕ → ApiOutcome) (m a g : ℕ) :
    apiRetryGo outcomes m a (g + 1) =
      (match outcomes a with
       | .ok v => RetryTrace.mk (.value v) [] 1
       | .binanceErr code =>
         if code = some (-1021) ∨ code = some (-1022) then
           let t := apiRetryGo outcomes m (a + 1) g
           RetryTrace.mk t.result t.sleeps (t.attempts + 1)
         else if code = some (-1003) then
           let t := apiRetryGo outcomes m (a + 1) g
           RetryTrace.mk t.result (2 ^ a * 2 :: t.sleeps) (t.attempts + 1)
         else if code = some (-2010) then RetryTrace.mk (.raised .accountError) [] 1
         else if code = some (-2011) then RetryTrace.mk (.raised .apiError) [] 1
         else if code = some (-1121) then RetryTrace.mk (.raised .inputError) [] 1
         else if a < m then
           let t := apiRetryGo outcomes m (a + 1) g
           RetryTrace.mk t.result (2 ^ a :: t.sleeps) (t.attempts + 1)
         else RetryTrace.mk (.raised .apiError) [] 1
       | .otherExc =>
         if a < m then
           let t := apiRetryGo outcomes m (a + 1) g
           RetryTrace.mk t.result (2 ^ a :: t.sleeps) (t.attempts + 1)
         else RetryTrace.mk (.raised .customError) [] 1) := rfl

theorem apiRetryGo_skew (outcomes : ℕ → ApiOutcome) (m : ℕ) (c : Option ℤ)
    (hc : c = some (-1021) ∨ c = some (-1022))
    (h : ∀ i, outcomes i = .binanceErr c) :
    ∀ g a, apiRetryGo outcomes m a g = RetryTrace.mk .noneReturn [] g := by
  intro g
  induction g with
  | zero =>
    intro a
    rfl
  | succ g ih =>
    intro a
    rcases hc with rfl | rfl <;>
      · rw [apiRetryGo_succ]
        simp [h a, ih (a + 1)]

theorem apiRetryGo_weight (outcomes : ℕ → ApiOutcome) (m : ℕ)
    (h : ∀ i, outcomes i = .binanceErr (some (-1003))) :
    ∀ g a, apiRetryGo outcomes m a g =
      RetryTrace.mk .noneReturn ((List.range' a g).map fun i => 2 ^ i * 2) g := by
  intro g
  induction g with
  | zero =>
    intro a
    rfl
  | succ g ih =>
    intro a
    rw [apiRetryGo_succ]
    simp [h a, ih (a + 1), List.range'_succ]

theorem apiRetryGo_generic (outcomes : ℕ → ApiOutcome) (m : ℕ) (c : Option ℤ)
    (hc : genericCode c) (h : ∀ i, outcomes i = .binanceErr c) :
    ∀ g a, a + g = m →
      apiRetryGo outcomes m a (g + 1) =
        RetryTrace.mk (.raised .apiError)
          ((List.range' a g).map fun i => 2 ^ i) (g + 1) := by
  intro g
  induction g with
  | zero =>
    intro a ha
    have hnlt : ¬ a < m := by omega
    rw [apiRetryGo_succ]
    simp [h a, hc.1, hc.2.1, hc.2.2.1, hc.2.2.2.1, hc.2.2.2.2, hnlt]
  | succ g ih =>
    intro a ha
    have hlt : a < m := by omega
    rw [apiRetryGo_succ]
    simp [h a, hc.1, hc.2.1, hc.2.2.1, hc.2.2.2.1, hc.2.2.2.2, hlt,
      ih (a + 1) (by omega), List.range'_succ]

theorem apiRetryGo_exc (outcomes : ℕ → ApiOutcome) (m : ℕ)
    (h : ∀ i, outcomes i = .otherExc) :
    ∀ g a, a + g = m →
      apiRetryGo outcomes m a (g + 1) =
        RetryTrace.mk (.raised .customError)
          ((List.range' a g).map fun i => 2 ^ i) (g + 1) := by
  intro g
  induction g with
  | zero =>
    intro a ha
    have hnlt : ¬ a < m := by omega
    rw [apiRetryGo_succ]
    simp [h a, hnlt]
  | succ g ih =>
    intro a ha
    have hlt : a < m := by omega
    rw [apiRetryGo_succ]
    simp [h a, hlt, ih (a + 1) (by omega), List.range'_succ]

/-- Claim C2 counterexample: when every attempt hits the insufficient-balance
code -2010 the retry loop raises AccountError, but the `exception_handler`
decorator wrapping `api_retry` re-raises it as a plain CustomError, so the
caller does not receive an AccountError. -/
theorem C2_counterexample :
    (api_retry (fun _ => .binanceErr (some (-2010))) 5).result =
      RetryResult.raised .customError ∧
    RetryResult.raised .customError ≠ RetryResult.raised .accountError := by
  constructor
  · rfl
  · decide

/-- Claim C2 amended: on the insufficient-balance code -2010 (resp. the
invalid-symbol code -1121) at attempt 1, the retry loop performs exactly one
attempt, records no backoff sleep, and raises AccountError (resp. InputError);
the `exception_handler` decorator then surfaces it to the caller re-wrapped as
a CustomError. -/
theorem C2_fail_fast (outcomes : ℕ → ApiOutcome) (maxRetries : ℕ)
    (hm : 1 ≤ maxRetries) :
    (outcomes 1 = .binanceErr (some (-2010)) →
       apiRetryLoop outcomes maxRetries =
         RetryTrace.mk (.raised .accountError) [] 1 ∧
       (api_retry outcomes maxRetries).result = .raised .customError) ∧
    (outcomes 1 = .binanceErr (some (-1121)) →
       apiRetryLoop outcomes maxRetries =
         RetryTrace.mk (.raised .inputError) [] 1 ∧
       (api_retry outcomes maxRetries).result = .raised .customError) := by
  obtain ⟨g, rfl⟩ : ∃ g, maxRetries = g + 1 := ⟨maxRetries - 1, by omega⟩
  constructor <;> intro h1
  · have hloop : apiRetryLoop outcomes (g + 1) =
        RetryTrace.mk (.raised .accountError) [] 1 := by
      rw [apiRetryLoop, apiRetryGo_succ]
      simp [h1]
    refine ⟨hloop, ?_⟩
    rw [api_retry, hloop]
    rfl
  · have hloop : apiRetryLoop outcomes (g + 1) =
        RetryTrace.mk (.raised .inputError) [] 1 := by
      rw [apiRetryLoop, apiRetryGo_succ]
      simp [h1]
    refine ⟨hloop, ?_⟩
    rw [api_retry, hloop]
    rfl

/-- Witness for C2: concrete run, codes -2010 and -1121, maxRetries 5. -/
theorem C2_fail_fast_witness :
    apiRetryLoop (fun _ => ApiOutcome.binanceErr (some (-2010))) 5 =
      RetryTrace.mk (.raised .accountError) [] 1 ∧
    apiRetryLoop (fun _ => ApiOutcome.binanceErr (some (-1121))) 5 =
      RetryTrace.mk (.raised .inputError) [] 1 :=
  ⟨((C2_fail_fast (fun _ => ApiOutcome.binanceErr (some (-2010))) 5
      (by norm_num)).1 rfl).1,
   ((C2_fail_fast (fun _ => ApiOutcome.binanceErr (some (-1121))) 5
      (by norm_num)).2 rfl).1⟩

/-- Claim C3 counterexample: with the weight-limit code -1003 on every attempt
and maxRetries 2, the loop sleeps 4 s then 8 s, performs both attempts, and
then the for-loop ends: the wrapper returns None to the caller instead of
surfacing an error after the final attempt. -/
theorem C3_counterexample :
    (api_retry (fun _ => .binanceErr (some (-1003))) 2).result =
      RetryResult.noneReturn ∧
    (api_retry (fun _ => .binanceErr (some (-1003))) 2).sleeps = [4, 8] ∧
    ∀ e, RetryResult.noneReturn ≠ RetryResult.raised e := by
  refine ⟨rfl, rfl, ?_⟩
  intro e h
  exact RetryResult.noConfusion h

/-- Claim C3 amended: the retry loop performs at most maxRetries attempts.
When every attempt fails with the same non-fail-fast outcome and
maxRetries = m ≥ 1: a generic API error code ends with APIError raised after
attempt m with sleeps `2^1 .. 2^(m-1)`; a non-domain exception likewise ends
with CustomError; both reach the caller re-wrapped as CustomError by the
`exception_handler` decorator.  The weight-limit code -1003 sleeps
`2^i * 2` on every attempt `i = 1..m` and then returns None (no error is
surfaced), and the clock-skew codes -1021 and -1022 sleep nothing and also return
None after m attempts. -/
theorem C3_retry_exhaustion (outcomes : ℕ → ApiOutcome) (m : ℕ) (hm : 1 ≤ m) :
    ((apiRetryLoop outcomes m).attempts ≤ m) ∧
    (∀ c, genericCode c → (∀ i, outcomes i = .binanceErr c) →
       apiRetryLoop outcomes m =
         RetryTrace.mk (.raised .apiError)
           ((List.range' 1 (m - 1)).map fun i => 2 ^ i) m ∧
       (api_retry outcomes m).result = .raised .customError) ∧
    ((∀ i, outcomes i = .otherExc) →
       apiRetryLoop outcomes m =
         RetryTrace.mk (.raised .customError)
           ((List.range' 1 (m - 1)).map fun i => 2 ^ i) m ∧
       (api_retry outcomes m).result = .raised .customError) ∧
    ((∀ i, outcomes i = .binanceErr (some (-1003))) →
       apiRetryLoop outcomes m =
         RetryTrace.mk .noneReturn ((List.range' 1 m).map fun i => 2 ^ i * 2) m) ∧
    (∀ c, (c = some (-1021) ∨ c = some (-1022)) →
       (∀ i, outcomes i = .binanceErr c) →
       apiRetryLoop outcomes m = RetryTrace.mk .noneReturn [] m) := by
  obtain ⟨g, rfl⟩ : ∃ g, m = g + 1 := ⟨m - 1, by omega⟩
  refine ⟨apiRetryGo_attempts_le outcomes (g + 1) (g + 1) 1, ?_, ?_, ?_, ?_⟩
  · intro c hc h
    have hloop := apiRetryGo_generic outcomes (g + 1) c hc h g 1 (by omega)
    have hloop2 : apiRetryLoop outcomes (g + 1) =
        RetryTrace.mk (.raised .apiError)
          ((List.range' 1 (g + 1 - 1)).map fun i => 2 ^ i) (g + 1) := by
      rw [apiRetryLoop, hloop]
      simp
    refine ⟨hloop2, ?_⟩
    rw [api_retry, hloop2]
    rfl
  · intro h
    have hloop := apiRetryGo_exc outcomes (g + 1) h g 1 (by omega)
    have hloop2 : apiRetryLoop outcomes (g + 1) =
        RetryTrace.mk (.raised .customError)
          ((List.range' 1 (g + 1 - 1)).map fun i => 2 ^ i) (g + 1) := by
      rw [apiRetryLoop, hloop]
      simp
    refine ⟨hloop2, ?_⟩
    rw [api_retry, hloop2]
    rfl
  · intro h
    rw [apiRetryLoop, apiRetryGo_weight outcomes (g + 1) h (g + 1) 1]
  · intro c hc h
    rw [apiRetryLoop, apiRetryGo_skew outcomes (g + 1) c hc h (g + 1) 1]

/-- Witness for C3: an unclassified code (`code = None`) with maxRetries 3
gives APIError from the loop after 3 attempts with sleeps 2 s and 4 s, seen by
the caller as CustomError. -/
theorem C3_retry_exhaustion_witness :
    apiRetryLoop (fun _ => ApiOutcome.binanceErr none) 3 =
      RetryTrace.mk (.raised .apiError) [2, 4] 3 ∧
    (api_retry (fun _ => ApiOutcome.binanceErr none) 3).result =
      RetryResult.raised .customError := by
  have h := (C3_retry_exhaustion (fun _ => ApiOutcome.binanceErr none) 3
    (by norm_num)).2.1 none
    ⟨by simp, by simp, by simp, by simp, by simp⟩ (fun i => rfl)
  constructor
  · rw [h.1]
    rfl
  · exact h.2

/-! ## RiskManager (src/risk.py): position sizing and risk limits -/

/-- Signal / position direction. -/
inductive Side
  | long
  | short
deriving DecidableEq

/-- The `position_size_type` strategy parameter: the code branches on the
strings `FIXED` and `DYNAMIC`; any other value takes the plain risk-based
branch. -/
inductive SizeType
  | fixedSize
  | riskBased
  | dynamicSize
deriving DecidableEq

/-- The strategy parameters read by `calculate_position_size`. -/
structure SizingStrategy where
  position_size_type : SizeType
  fixed_position_size : ℚ
  account_risk_per_trade : ℚ
  static_sl_percent : ℚ
  max_leverage : ℚ
  auto_leverage : Bool
  default_leverage : ℕ
deriving DecidableEq

/-- Per-symbol precision data returned by `get_symbol_precision`. -/
structure SymbolInfo where
  min_notional : ℚ
  min_qty : ℚ
  qty_precision : ℕ
deriving DecidableEq

/-- Python exceptions the body of `calculate_position_size` can raise; every
one is caught by its `except Exception` arm. -/
inductive PyExc
  | nameError
  | zeroDivisionError
  | fetchError
deriving DecidableEq

/-- Python `round(x, p)` to `p` decimal places, idealized over ℚ (the handling
of exact ties is immaterial to every claim below). -/
def roundTo (p : ℕ) (x : ℚ) : ℚ := (round (x * 10 ^ p) : ℤ) / 10 ^ p

/-- The `try`-body of `RiskManager.calculate_position_size` (risk.py lines
135-224).  `info?` is `none` when `await get_symbol_precision` raises.  In the
FIXED branch the local variable `target_leverage` is never assigned, and every
later path reads it (line 202 or line 212), so the branch always raises
`UnboundLocalError`.  A zero stop-loss percentage raises `ZeroDivisionError`
(at `10 / sl_pct` under auto leverage, otherwise at the notional division);
`entry = 0` raises at `quantity = position_size_usdt / entry_price` and a zero
lot step at the `math.floor` division. -/
def calcPositionSizeBody (st : SizingStrategy) (info? : Option SymbolInfo)
    (availableBalance : ℚ) (openPositions : ℕ) (protectionMode : Bool)
    (entry stop : ℚ) (signalType : Side) (strength : ℚ) :
    Except PyExc (ℚ × ℕ) :=
  if protectionMode then .ok (0, st.default_leverage)
  else
    match info? with
    | none => .error .fetchError
    | some info =>
      match st.position_size_type with
      | .fixedSize => .error .nameError
      | _ =>
        let adjusted_risk :=
          min (st.account_risk_per_trade * (strength / 100) * (3/2))
            st.account_risk_per_trade
        let risk_amount := availableBalance * adjusted_risk / 100
        let sl_pct :=
          if entry = 0 ∨ stop = 0 then st.static_sl_percent
          else
            match signalType with
            | .long => |(entry - stop) / entry| * 100
            | .short => |(stop - entry) / entry| * 100
        if sl_pct = 0 then .error .zeroDivisionError
        else
          let target_leverage : ℕ :=
            if st.auto_leverage then
              (⌊max 1 (min st.max_leverage (10 / sl_pct))⌋).toNat
            else st.default_leverage
          let position_size_usdt := risk_amount * target_leverage / (sl_pct / 100)
          let position_size_usdt :=
            if st.position_size_type = .dynamicSize ∧ 0 < openPositions then
              position_size_usdt * max (1/5) (1 - (openPositions : ℚ) * (1/5))
            else position_size_usdt
          if position_size_usdt < info.min_notional then .ok (0, target_leverage)
          else
            let position_size_usdt :=
              min position_size_usdt (availableBalance * (1/4))
            if entry = 0 then .error .zeroDivisionError
            else if info.min_qty = 0 then .error .zeroDivisionError
            else
              let quantity := position_size_usdt / entry
              let leveraged_quantity := quantity * target_leverage
              let rounded_quantity :=
                (⌊leveraged_quantity / info.min_qty⌋ : ℚ) * info.min_qty
              .ok (roundTo info.qty_precision rounded_quantity, target_leverage)

/-- `RiskManager.calculate_position_size`: the body above wrapped in
`try/except Exception` — any exception is caught and `(0, default_leverage)`
returned (risk.py lines 225-227; `strategy.get` is `dict.get` and cannot
raise). -/
def calculate_position_size (st : SizingStrategy) (info? : Option SymbolInfo)
    (availableBalance : ℚ) (openPositions : ℕ) (protectionMode : Bool)
    (entry stop : ℚ) (signalType : Side) (strength : ℚ) : ℚ × ℕ :=
  match calcPositionSizeBody st info? availableBalance openPositions
      protectionMode entry stop signalType strength with
  | .ok r => r
  | .error _ => (0, st.default_leverage)

/-- One open position as read by `_calculate_total_account_risk`. -/
structure OpenPosition where
  amount : ℚ
  mark_price : ℚ
  leverage : ℚ
deriving DecidableEq

/-- The strategy limits read by `check_risk_limits`. -/
structure RiskLimits where
  max_drawdown : ℚ
  max_open_positions : ℕ
  max_daily_trades : ℕ
  profit_threshold_daily : ℚ
  loss_threshold_daily : ℚ
  max_account_risk : ℚ
deriving DecidableEq

/-- The `RiskManager` state read by `check_risk_limits`. -/
structure RiskState where
  protection_mode : Bool
  drawdown : ℚ
  open_positions : List OpenPosition
  daily_trade_count : ℕ
  daily_total_pnl : ℚ
  initial_balance : ℚ
  total_balance : ℚ
deriving DecidableEq

/-- `RiskManager._calculate_total_account_risk` (risk.py lines 566-584).
(ℚ division by zero yields 0 where Python would raise; a raise would make
`check_risk_limits` return false through its except arm, and no claim touches
a zero-leverage position.) -/
def calcTotalAccountRisk (positions : List OpenPosition) (total_balance : ℚ) : ℚ :=
  if total_balance ≤ 0 then 0
  else positions.foldl
    (fun acc pos =>
      acc + |pos.amount * pos.mark_price| / (total_balance * pos.leverage) * 100) 0

/-- `RiskManager.check_risk_limits` (risk.py lines 508-564): fails closed on
the first violated limit, protection mode checked first. -/
def check_risk_limits (s : RiskState) (lim : RiskLimits) : Bool :=
  if s.protection_mode then false
  else if lim.max_drawdown < s.drawdown then false
  else if lim.max_open_positions ≤ s.open_positions.length then false
  else if lim.max_daily_trades ≤ s.daily_trade_count then false
  else
    let daily_profit_pct :=
      if 0 < s.initial_balance then s.daily_total_pnl / s.initial_balance * 100
      else 0
    if lim.profit_threshold_daily < daily_profit_pct then false
    else if daily_profit_pct < -lim.loss_threshold_daily then false
    else if lim.max_account_risk <
        calcTotalAccountRisk s.open_positions s.total_balance then false
    else true

/-- Claim C1 counterexample: for end-to-end scenario A (LONG, strength 80,
entry 100, stop 98, balance 10000, risk 1 %, auto leverage, max leverage 10,
lot step 0.001, quantity precision 3) the code converts the capped notional
2500 to `quantity = 2500/100 = 25` and then multiplies by the leverage 5
(risk.py line 212), so `calculate_position_size` returns quantity 125, not the
25 the claim states. -/
theorem C1_counterexample :
    (calculate_position_size (SizingStrategy.mk .riskBased 0 1 2 10 true 3)
        (some (SymbolInfo.mk 5 (1/1000) 3)) 10000 0 false 100 98 .long 80).1 =
      125 ∧ (125 : ℚ) ≠ 25 := by
  constructor
  · have habs : |(1 : ℚ)/50| = 1/50 := abs_of_pos (by norm_num)
    have hhalf : ⌊(250001 / 2 : ℚ)⌋ = 125000 := Int.floor_eq_iff.mpr (by norm_num)
    have h5 : Int.toNat 5 = 5 := rfl
    simp only [calculate_position_size, calcPositionSizeBody]
    norm_num [min_def, max_def, habs]
    simp only [h5, Nat.cast_ofNat]
    norm_num [roundTo, round_eq, Int.floor_ofNat, hhalf]
  · norm_num

/-- Claim C1 amended: in scenario A the leverage is 5 and the notional is
capped at 2500 (25 % of the balance), but the returned quantity is
`2500 / 100 × 5 = 125` — the leveraged quantity — not 25. -/
theorem C1_scenarioA :
    calculate_position_size (SizingStrategy.mk .riskBased 0 1 2 10 true 3)
      (some (SymbolInfo.mk 5 (1/1000) 3)) 10000 0 false 100 98 .long 80 =
      (125, 5) := by
  have habs : |(1 : ℚ)/50| = 1/50 := abs_of_pos (by norm_num)
  have hhalf : ⌊(250001 / 2 : ℚ)⌋ = 125000 := Int.floor_eq_iff.mpr (by norm_num)
  have h5 : Int.toNat 5 = 5 := rfl
  simp only [calculate_position_size, calcPositionSizeBody]
  norm_num [min_def, max_def, habs]
  simp only [h5, Nat.cast_ofNat]
  norm_num [roundTo, round_eq, Int.floor_ofNat, hhalf]

/-- Claim C10: `calculate_position_size` never propagates an exception — its
`except Exception` arm turns every failing internal step into the return value
`(0, default_leverage)`, and in FIXED sizing mode the body always fails (the
`target_leverage` local is read without ever being assigned), so FIXED mode
always returns `(0, default_leverage)`. -/
theorem C10_no_exception_propagation (st : SizingStrategy)
    (info? : Option SymbolInfo) (bal : ℚ) (op : ℕ) (prot : Bool)
    (entry stop : ℚ) (sig : Side) (strength : ℚ) :
    (∀ e, calcPositionSizeBody st info? bal op prot entry stop sig strength =
        .error e →
      calculate_position_size st info? bal op prot entry stop sig strength =
        (0, st.default_leverage)) ∧
    (st.position_size_type = .fixedSize → prot = false →
      calculate_position_size st info? bal op prot entry stop sig strength =
        (0, st.default_leverage)) := by
  constructor
  · intro e he
    rw [calculate_position_size, he]
  · intro hfix hprot
    subst hprot
    rcases info? with _ | info
    · simp [calculate_position_size, calcPositionSizeBody]
    · simp [calculate_position_size, calcPositionSizeBody, hfix]

/-- Witness for C10: FIXED mode with default leverage 4 returns `(0, 4)`. -/
theorem C10_no_exception_propagation_witness :
    calculate_position_size (SizingStrategy.mk .fixedSize 500 1 2 10 true 4)
      (some (SymbolInfo.mk 5 (1/1000) 3)) 10000 0 false 100 98 .long 80 =
      (0, 4) :=
  (C10_no_exception_propagation (SizingStrategy.mk .fixedSize 500 1 2 10 true 4)
    (some (SymbolInfo.mk 5 (1/1000) 3)) 10000 0 false 100 98 .long 80).2 rfl rfl

/-- Claim C4: with protection mode on, `check_risk_limits` returns false
before looking at any other limit, and `calculate_position_size` returns size
0 (with the default leverage), so no new entry is possible. -/
theorem C4_protection_gate (s : RiskState) (lim : RiskLimits)
    (st : SizingStrategy) (info? : Option SymbolInfo) (bal : ℚ) (op : ℕ)
    (entry stop : ℚ) (sig : Side) (strength : ℚ)
    (hprot : s.protection_mode = true) :
    check_risk_limits s lim = false ∧
    calculate_position_size st info? bal op true entry stop sig strength =
      (0, st.default_leverage) := by
  constructor
  · rw [check_risk_limits, hprot]
    rfl
  · rfl

/-- Witness for C4: a concrete protection-mode state. -/
theorem C4_protection_gate_witness :
    check_risk_limits (RiskState.mk true 0 [] 0 0 0 0)
        (RiskLimits.mk 10 5 10 5 5 50) = false ∧
    calculate_position_size (SizingStrategy.mk .riskBased 0 1 2 10 true 3)
      (some (SymbolInfo.mk 5 (1/1000) 3)) 10000 0 true 100 98 .long 80 =
      (0, 3) :=
  C4_protection_gate (RiskState.mk true 0 [] 0 0 0 0)
    (RiskLimits.mk 10 5 10 5 5 50) (SizingStrategy.mk .riskBased 0 1 2 10 true 3)
    (some (SymbolInfo.mk 5 (1/1000) 3)) 10000 0 100 98 .long 80 rfl

/-! ## PositionManager (src/position.py): trailing stop and partial close -/

/-- The strategy parameters read by `update_trailing_stop` and
`update_stop_loss`. -/
structure TrailConfig where
  trailing_sl : Bool
  trailing_sl_distance : ℚ
  trailing_sl_interval : ℚ
  price_precision : ℕ
deriving DecidableEq

/-- The per-symbol state read by the trailing-stop logic: the side of the open
position and the tracked stop order price (`stop_orders[symbol]['price']`). -/
structure TrailState where
  side : Side
  currentStop : ℚ
deriving DecidableEq

/-- `PositionManager.update_stop_loss` (position.py lines 316-373), reduced to
the tracked stop price: cancels the pending orders, rounds the new price to
the symbol's price precision and re-creates the stop; when order creation
fails (`orderOk = false`) the tracked entry is left unchanged. -/
def update_stop_loss (cfg : TrailConfig) (st : TrailState) (orderOk : Bool)
    (newStop : ℚ) : ℚ :=
  if orderOk then roundTo cfg.price_precision newStop else st.currentStop

/-- `PositionManager.update_trailing_stop` (position.py lines 267-314),
returning the tracked stop price after the call, given that a position and a
tracked stop order exist (the code returns with no change otherwise). -/
def update_trailing_stop (cfg : TrailConfig) (st : TrailState) (orderOk : Bool)
    (currentPrice : ℚ) : ℚ :=
  if ¬cfg.trailing_sl then st.currentStop
  else
    match st.side with
    | .long =>
      let trailing_distance := currentPrice * (cfg.trailing_sl_distance / 100)
      let new_stop := currentPrice - trailing_distance
      if st.currentStop < new_stop then
        if st.currentStop * (1 + cfg.trailing_sl_interval / 100) < new_stop then
          update_stop_loss cfg st orderOk new_stop
        else st.currentStop
      else st.currentStop
    | .short =>
      let trailing_distance := currentPrice * (cfg.trailing_sl_distance / 100)
      let new_stop := currentPrice + trailing_distance
      if new_stop < st.currentStop then
        if new_stop < st.currentStop * (1 - cfg.trailing_sl_interval / 100) then
          update_stop_loss cfg st orderOk new_stop
        else st.currentStop
      else st.currentStop

theorem roundTo_mono (p : ℕ) {x y : ℚ} (h : x ≤ y) :
    roundTo p x ≤ roundTo p y := by
  have hp : (0 : ℚ) < 10 ^ p := by positivity
  have hr : round (x * 10 ^ p) ≤ round (y * 10 ^ p) := by
    rw [round_eq, round_eq]
    apply Int.floor_le_floor
    have hmul := mul_le_mul_of_nonneg_right h (le_of_lt hp)
    linarith
  rw [roundTo, roundTo]
  gcongr

/-- Claim C8: `update_trailing_stop` never moves the tracked stop price in the
unfavorable direction — for a LONG position it never decreases, for a SHORT
position it never increases — and any change happens only when the candidate
stop `currentPrice*(1 ∓ trailDistance/100)` lies strictly beyond the
anti-chatter threshold `currentStop*(1 ± trailInterval/100)`.  Hypothesis: the
stored stop is aligned to the symbol's price grid (it is, since every stored
stop was produced by `round(..., price_precision)`). -/
theorem C8_trailing_stop_monotone (cfg : TrailConfig) (st : TrailState)
    (orderOk : Bool) (currentPrice : ℚ)
    (hgrid : roundTo cfg.price_precision st.currentStop = st.currentStop) :
    (st.side = .long →
       st.currentStop ≤ update_trailing_stop cfg st orderOk currentPrice ∧
       (update_trailing_stop cfg st orderOk currentPrice ≠ st.currentStop →
         st.currentStop * (1 + cfg.trailing_sl_interval / 100) <
           currentPrice - currentPrice * (cfg.trailing_sl_distance / 100))) ∧
    (st.side = .short →
       update_trailing_stop cfg st orderOk currentPrice ≤ st.currentStop ∧
       (update_trailing_stop cfg st orderOk currentPrice ≠ st.currentStop →
         currentPrice + currentPrice * (cfg.trailing_sl_distance / 100) <
           st.currentStop * (1 - cfg.trailing_sl_interval / 100))) := by
  constructor
  · intro hside
    by_cases htr : cfg.trailing_sl = true
    · rw [update_trailing_stop, if_neg (not_not_intro htr)]
      simp only [hside]
      by_cases h1 : st.currentStop <
          currentPrice - currentPrice * (cfg.trailing_sl_distance / 100)
      · by_cases h2 : st.currentStop * (1 + cfg.trailing_sl_interval / 100) <
            currentPrice - currentPrice * (cfg.trailing_sl_distance / 100)
        · rw [if_pos h1, if_pos h2, update_stop_loss]
          by_cases hok : orderOk = true
          · rw [if_pos hok]
            refine ⟨?_, fun _ => h2⟩
            calc st.currentStop
                = roundTo cfg.price_precision st.currentStop := hgrid.symm
              _ ≤ roundTo cfg.price_precision
                    (currentPrice -
                      currentPrice * (cfg.trailing_sl_distance / 100)) :=
                  roundTo_mono _ (le_of_lt h1)
          · rw [if_neg hok]
            exact ⟨le_refl _, fun hne => absurd rfl hne⟩
        · rw [if_pos h1, if_neg h2]
          exact ⟨le_refl _, fun hne => absurd rfl hne⟩
      · rw [if_neg h1]
        exact ⟨le_refl _, fun hne => absurd rfl hne⟩
    · rw [update_trailing_stop, if_pos htr]
      exact ⟨le_refl _, fun hne => absurd rfl hne⟩
  · intro hside
    by_cases htr : cfg.trailing_sl = true
    · rw [update_trailing_stop, if_neg (not_not_intro htr)]
      simp only [hside]
      by_cases h1 : currentPrice +
          currentPrice * (cfg.trailing_sl_distance / 100) < st.currentStop
      · by_cases h2 : currentPrice +
            currentPrice * (cfg.trailing_sl_distance / 100) <
            st.currentStop * (1 - cfg.trailing_sl_interval / 100)
        · rw [if_pos h1, if_pos h2, update_stop_loss]
          by_cases hok : orderOk = true
          · rw [if_pos hok]
            refine ⟨?_, fun _ => h2⟩
            calc roundTo cfg.price_precision
                  (currentPrice +
                    currentPrice * (cfg.trailing_sl_distance / 100))
                ≤ roundTo cfg.price_precision st.currentStop :=
                  roundTo_mono _ (le_of_lt h1)
              _ = st.currentStop := hgrid
          · rw [if_neg hok]
            exact ⟨le_refl _, fun hne => absurd rfl hne⟩
        · rw [if_pos h1, if_neg h2]
          exact ⟨le_refl _, fun hne => absurd rfl hne⟩
      · rw [if_neg h1]
        exact ⟨le_refl _, fun hne => absurd rfl hne⟩
    · rw [update_trailing_stop, if_pos htr]
      exact ⟨le_refl _, fun hne => absurd rfl hne⟩

/-- Witness for C8: LONG position, stop 98 (precision 2), price 105, distance
1 %, interval 0.5 %: candidate 103.95 exceeds the threshold 98.49 and the stop
only moves up. -/
theorem C8_trailing_stop_monotone_witness :
    (98 : ℚ) ≤ update_trailing_stop (TrailConfig.mk true 1 (1/2) 2)
      (TrailState.mk .long 98) true 105 := by
  have hfloor : ⌊(19601 / 2 : ℚ)⌋ = 9800 := Int.floor_eq_iff.mpr (by norm_num)
  have hgrid : roundTo 2 (98 : ℚ) = 98 := by
    norm_num [roundTo, round_eq, hfloor]
  exact ((C8_trailing_stop_monotone (TrailConfig.mk true 1 (1/2) 2)
    (TrailState.mk .long 98) true 105 hgrid).1 rfl).1

/-- Exchange position fields read by `process_partial_close` (from
`risk_manager.get_position_for_symbol`, i.e. the exchange-mirrored open
position list, which covers manual positions as well). -/
structure ExchangePosition where
  side : Side
  amount : ℚ
  entry_price : ℚ
deriving DecidableEq

/-- The `active_trades[symbol]` fields read and written by
`process_partial_close`. -/
structure ActiveTrade where
  partially_closed : Bool
  quantity : ℚ
deriving DecidableEq

/-- The strategy parameters read by `process_partial_close`. -/
structure PartialCloseConfig where
  partial_close_enabled : Bool
  partial_close_threshold : ℚ
  partial_close_percentage : ℚ
deriving DecidableEq

/-- Per-symbol state touched by `process_partial_close`: the exchange-side
position (if any) and the bot's in-memory active-trade record (if any; manual
positions have none). -/
structure PartialCloseState where
  position : Option ExchangePosition
  trade : Option ActiveTrade
deriving DecidableEq

/-- `RiskManager._calculate_position_pnl_percent` (risk.py lines 700-707). -/
def pnlPercent (pos : ExchangePosition) (currentPrice : ℚ) : ℚ :=
  match pos.side with
  | .long => (currentPrice - pos.entry_price) / pos.entry_price * 100
  | .short => (pos.entry_price - currentPrice) / pos.entry_price * 100

/-- `PositionManager.process_partial_close` (position.py lines 375-452).  A
zero entry price raises `ZeroDivisionError` inside the `try` and the except
arm returns None — no close.  The market order is modelled as filling the
requested quantity when it succeeds (`orderOk = true`); on failure the state
is unchanged.  Returns the updated state and whether a partial close was
executed.  Note the once-only guard (line 393) and the flag assignment (line
432-433) both apply only when the symbol is tracked in `active_trades`. -/
def process_partial_close (cfg : PartialCloseConfig) (st : PartialCloseState)
    (orderOk : Bool) (currentPrice : ℚ) : PartialCloseState × Bool :=
  if ¬cfg.partial_close_enabled then (st, false)
  else
    match st.position with
    | none => (st, false)
    | some pos =>
      if pos.entry_price = 0 then (st, false)
      else if cfg.partial_close_threshold < pnlPercent pos currentPrice then
        if (match st.trade with
            | some t => t.partially_closed
            | none => false) then (st, false)
        else if ¬orderOk then (st, false)
        else
          let close_qty := |pos.amount| * (cfg.partial_close_percentage / 100)
          (PartialCloseState.mk st.position
            (st.trade.map fun t =>
              ActiveTrade.mk true (t.quantity - close_qty)), true)
      else (st, false)

/-- Claim C9 counterexample: for an open position that is not tracked in
`active_trades` (a manually opened position), the `partially_closed` guard
never applies and nothing records the close, so two consecutive calls both
execute a partial close on the same open position. -/
theorem C9_counterexample :
    (process_partial_close (PartialCloseConfig.mk true 5 30)
        (PartialCloseState.mk (some (ExchangePosition.mk .long 10 100)) none)
        true 110).2 = true ∧
    (process_partial_close (PartialCloseConfig.mk true 5 30)
        (process_partial_close (PartialCloseConfig.mk true 5 30)
          (PartialCloseState.mk (some (ExchangePosition.mk .long 10 100)) none)
          true 110).1
        true 110).2 = true := by
  constructor <;>
    norm_num [process_partial_close, pnlPercent]

/-- Claim C9 amended: for a position tracked in `active_trades`, a partial
close happens at most once — an executed close sets `partially_closed` and
shrinks the tracked quantity by exactly `partial_close_percentage` percent of
the position's pre-close amount, and every later call on the resulting state
performs no close.  For open positions absent from `active_trades` the guard
does not apply (see the counterexample). -/
theorem C9_once_per_tracked_position (cfg : PartialCloseConfig)
    (st : PartialCloseState) (orderOk : Bool) (currentPrice : ℚ)
    (pos : ExchangePosition) (t : ActiveTrade)
    (hpos : st.position = some pos) (ht : st.trade = some t)
    (hclosed : (process_partial_close cfg st orderOk currentPrice).2 = true) :
    (process_partial_close cfg st orderOk currentPrice).1.trade =
      some (ActiveTrade.mk true
        (t.quantity - |pos.amount| * (cfg.partial_close_percentage / 100))) ∧
    ∀ price2 ok2,
      (process_partial_close cfg
        (process_partial_close cfg st orderOk currentPrice).1 ok2 price2).2 =
        false := by
  have hen : cfg.partial_close_enabled = true := by
    by_contra hcon
    rw [process_partial_close, if_pos hcon] at hclosed
    simp at hclosed
  rw [process_partial_close, if_neg (not_not_intro hen)] at hclosed
  simp only [hpos] at hclosed
  have hent : ¬ pos.entry_price = 0 := by
    intro hcon
    rw [if_pos hcon] at hclosed
    simp at hclosed
  rw [if_neg hent] at hclosed
  have hpnl : cfg.partial_close_threshold < pnlPercent pos currentPrice := by
    by_contra hcon
    rw [if_neg hcon] at hclosed
    simp at hclosed
  rw [if_pos hpnl] at hclosed
  simp only [ht] at hclosed
  have hfl : ¬ t.partially_closed = true := by
    intro hcon
    rw [if_pos hcon] at hclosed
    simp at hclosed
  rw [if_neg hfl] at hclosed
  have hok : orderOk = true := by
    by_contra hcon
    rw [if_pos hcon] at hclosed
    simp at hclosed
  have hres : process_partial_close cfg st orderOk currentPrice =
      (PartialCloseState.mk st.position
        (some (ActiveTrade.mk true
          (t.quantity - |pos.amount| * (cfg.partial_close_percentage / 100)))),
        true) := by
    rw [process_partial_close, if_neg (not_not_intro hen)]
    simp only [hpos, ht]
    rw [if_neg hent, if_pos hpnl, if_neg hfl, if_neg (not_not_intro hok)]
    simp
  constructor
  · rw [hres]
  · intro price2 ok2
    rw [hres]
    simp [process_partial_close, hen, hpos, hent]

/-- Witness for C9 amended: a tracked LONG position of amount 10 at entry 100,
threshold 5 %, close 30 %, price 110: the second call performs no close. -/
theorem C9_once_per_tracked_position_witness :
    (process_partial_close (PartialCloseConfig.mk true 5 30)
      ((process_partial_close (PartialCloseConfig.mk true 5 30)
        (PartialCloseState.mk (some (ExchangePosition.mk .long 10 100))
          (some (ActiveTrade.mk false 10))) true 110).1) true 120).2 =
      false :=
  (C9_once_per_tracked_position (PartialCloseConfig.mk true 5 30)
    (PartialCloseState.mk (some (ExchangePosition.mk .long 10 100))
      (some (ActiveTrade.mk false 10))) true 110
    (ExchangePosition.mk .long 10 100) (ActiveTrade.mk false 10) rfl rfl
    (by norm_num [process_partial_close, pnlPercent])).2 120 true

end TradeBot
